import Mathlib

/-!
Shallow embedding of the clause data structure (`clause.hpp`) and the
reduction engine (`reduce` implementation) of the CaDiCaL solver snapshot,
together with theorems checking its natural-language specification.

Machine integers (`int`, `long`, the `glue` bit field) are modelled as
unbounded `Int`: none of the verified properties involves overflow.
Addresses are modelled as integers; pointer arithmetic on `char *` becomes
integer arithmetic. Assertion-guarded accessors are modelled with `Option`.
-/

namespace CaDiCaL

/-- Size of a C++ `int` (the literal type and `_pos`) on an LP64 platform. -/
def sizeof_int : Int := 4

/-- Size of a C++ `long` (the `_analyzed` time stamp) on an LP64 platform. -/
def sizeof_long : Int := 8

/-- Size of the full `Clause` struct (the fixed header, including the nominal
two-literal slot of the variadic `literals` array) on an LP64 platform. -/
def sizeof_Clause : Int := 40

/-- The `Clause` record of `clause.hpp`.  The anonymous `have` bit struct is
flattened into the two fields `have_analyzed` and `have_pos`.  The `copy`
member of the union is not modelled (it only matters inside the moving
garbage collector, which is outside the verified fragment); `literals`
carries the embedded literal sequence. -/
structure Clause where
  _analyzed : Int
  _pos : Int
  have_analyzed : Bool
  have_pos : Bool
  redundant : Bool
  garbage : Bool
  reason : Bool
  moved : Bool
  glue : Int
  blocked : Int
  size : Int
  literals : List Int
  deriving DecidableEq, Repr

/-- `Clause::offset`: number of bytes of the struct prefix that are not part
of the raw allocation because the optional fields are absent. -/
def Clause.offset (c : Clause) : Int :=
  let res : Int := 0
  let res := if !c.have_pos then res + sizeof_int else res
  let res := if !c.have_analyzed then res + sizeof_long else res
  res

/-- `Clause::bytes`: number of bytes actually allocated for the clause. -/
def Clause.bytes (c : Clause) : Int :=
  sizeof_Clause + (c.size - 2) * sizeof_int - c.offset

/-- `Clause::start`: actual start of the allocated memory, for a clause whose
object pointer (`this`) is the address `p`. -/
def Clause.start (c : Clause) (p : Int) : Int :=
  c.offset + p

/-- Modelled from the spec: `offset(p)` is the sum of the sizes of the absent
optional prefix fields (0, size-of-`pos`, size-of-`analyzed`, or their sum,
determined by the presence bits). -/
def spec_offset (c : Clause) : Int :=
  (if c.have_pos then 0 else sizeof_int) + (if c.have_analyzed then 0 else sizeof_long)

/-- `Clause::analyzed` accessor: `assert (have.analyzed); return _analyzed;`.
The assertion is modelled by returning `none` when the presence bit is unset
(a contract violation), and the stored value otherwise. -/
def Clause.analyzed (c : Clause) : Option Int :=
  if c.have_analyzed then some c._analyzed else none

/-- `Clause::pos` accessor: `assert (have.pos); return _pos;`, modelled like
`Clause.analyzed`. -/
def Clause.pos (c : Clause) : Option Int :=
  if c.have_pos then some c._pos else none

/-- `Clause::update_after_shrinking`: fix up `_pos` and `glue` after the
clause size was reduced externally. -/
def Clause.update_after_shrinking (c : Clause) : Clause :=
  let c := if c.have_pos ∧ c._pos ≥ c.size then { c with _pos := 2 } else c
  if c.glue > c.size then { c with glue := c.size } else c

/-- `Clause::collect`: ready to be collected and deleted. -/
def Clause.collect (c : Clause) : Bool :=
  !c.reason && c.garbage

/-- The `analyzed_earlier` comparator of `clause.hpp`. -/
def analyzed_earlier (a b : Clause) : Bool :=
  decide (a._analyzed < b._analyzed)

/-- The `smaller_size` comparator of `clause.hpp`. -/
def smaller_size (a b : Clause) : Bool :=
  decide (a.size < b.size)

/-- The `less_usefull` comparator of the reduce implementation: higher glue is
less useful, ties are broken by the `analyzed` time stamp. -/
def less_usefull (c d : Clause) : Bool :=
  if c.glue > d.glue then true
  else if c.glue < d.glue then false
  else analyzed_earlier c d

/-- Candidate test of `Internal::mark_useless_redundant_clauses_as_garbage`,
mirroring the chain of `continue` guards of the selection loop. -/
def isCandidate (limAnalyzed : Int) (c : Clause) : Bool :=
  if !c.redundant then false
  else if c.blocked ≠ 0 then false
  else if c.reason then false
  else if c.garbage then false
  else if !c.have_analyzed then false
  else if c._analyzed > limAnalyzed then false
  else true

/-- The non-strict order induced by `less_usefull`, used to state sortedness:
`rLU c d` holds when `d` does not have to come before `c`. -/
def rLU (c d : Clause) : Prop :=
  less_usefull d c = false

/-- The non-strict order induced by `analyzed_earlier`. -/
def rAE (c d : Clause) : Prop :=
  analyzed_earlier d c = false

instance : DecidableRel rLU :=
  fun c d => inferInstanceAs (Decidable (less_usefull d c = false))

instance : DecidableRel rAE :=
  fun c d => inferInstanceAs (Decidable (analyzed_earlier d c = false))

/-- The selection stage: the `stack` of reduction candidates. -/
def reductionStack (limAnalyzed : Int) (clauses : List Clause) : List Clause :=
  clauses.filter (isCandidate limAnalyzed)

/-- The sort stage: `sort (stack.begin (), stack.end (), cmp)` with the
comparator chosen by the `reduceglue` option, modelled by a correct sort
with respect to the comparator. -/
def sortedStack (reduceglue : Bool) (limAnalyzed : Int) (clauses : List Clause) : List Clause :=
  if reduceglue then List.insertionSort rLU (reductionStack limAnalyzed clauses)
  else List.insertionSort rAE (reductionStack limAnalyzed clauses)

/-- Observable outcome of one call to
`Internal::mark_useless_redundant_clauses_as_garbage`: the clauses marked
garbage, the surviving candidates, the published kept profile
(`lim.keptsize`, `lim.keptglue`) and the updated `stats.reduced`. -/
structure MarkResult where
  marked : List Clause
  kept : List Clause
  keptsize : Int
  keptglue : Int
  reduced : Int
  deriving DecidableEq, Repr

/-- `Internal::mark_useless_redundant_clauses_as_garbage`, modelled
functionally: select candidates, sort them, mark the first half as garbage
(incrementing `stats.reduced` once per marked clause), and publish the
maxima of the surviving half starting from `lim.keptsize = lim.keptglue = 0`. -/
def mark_useless_redundant_clauses_as_garbage (reduceglue : Bool)
    (limAnalyzed reduced0 : Int) (clauses : List Clause) : MarkResult :=
  let sorted := sortedStack reduceglue limAnalyzed clauses
  let marked := sorted.take (sorted.length / 2)
  let kept := sorted.drop (sorted.length / 2)
  { marked := marked
    kept := kept
    keptsize := kept.foldl (fun m c => if c.size > m then c.size else m) 0
    keptglue := kept.foldl (fun m c => if c.glue > m then c.glue else m) 0
    reduced := reduced0 + marked.length }

/-- Scheduler state touched by the tail of `Internal::reduce`: the `inc` and
`lim` members and the statistics counters they read. -/
structure SchedState where
  inc_reduce : Int
  inc_redinc : Int
  lim_reduce : Int
  lim_analyzed : Int
  lim_conflicts_at_last_reduce : Int
  stats_conflicts : Int
  stats_analyzed : Int
  deriving DecidableEq, Repr

/-- The scheduler-update tail of `Internal::reduce`, statement by statement:
`inc.reduce += inc.redinc; if (inc.redinc > 1) inc.redinc--;`
`lim.reduce = stats.conflicts + inc.reduce; lim.analyzed = stats.analyzed;`
`lim.conflicts_at_last_reduce = stats.conflicts;`. -/
def reduce_update (s : SchedState) : SchedState :=
  let s := { s with inc_reduce := s.inc_reduce + s.inc_redinc }
  let s := if s.inc_redinc > 1 then { s with inc_redinc := s.inc_redinc - 1 } else s
  let s := { s with lim_reduce := s.stats_conflicts + s.inc_reduce }
  let s := { s with lim_analyzed := s.stats_analyzed }
  { s with lim_conflicts_at_last_reduce := s.stats_conflicts }

/-- `Internal::reducing`: the reduce trigger. -/
def reducing (opts_reduce : Bool) (stats_conflicts lim_reduce : Int) : Bool :=
  if !opts_reduce then false else decide (stats_conflicts ≥ lim_reduce)

/-- A redundant candidate clause with the given glue, time stamp and size,
used to instantiate theorems on concrete inputs. -/
def cand (g a sz : Int) : Clause where
  _analyzed := a
  _pos := 2
  have_analyzed := true
  have_pos := true
  redundant := true
  garbage := false
  reason := false
  moved := false
  glue := g
  blocked := 0
  size := sz
  literals := [1, -2, 4]

/-- A binary original clause carrying neither optional field. -/
def clause_no_extra : Clause where
  _analyzed := 0
  _pos := 0
  have_analyzed := false
  have_pos := false
  redundant := false
  garbage := false
  reason := false
  moved := false
  glue := 0
  blocked := 0
  size := 2
  literals := [-3, 5]

/-- The shrink-fixup scenario of the spec: a clause that had size 6, `pos` 5
and glue 4 and whose size was shrunk to 3 by an external strengthening. -/
def shrunk_clause : Clause where
  _analyzed := 11
  _pos := 5
  have_analyzed := true
  have_pos := true
  redundant := true
  garbage := false
  reason := false
  moved := false
  glue := 4
  blocked := 0
  size := 3
  literals := [1, -2, 4]

/-- A concrete scheduler state: 100 conflicts, reduce increment 10, reduce
increment growth 5. -/
def sched0 : SchedState where
  inc_reduce := 10
  inc_redinc := 5
  lim_reduce := 0
  lim_analyzed := 0
  lim_conflicts_at_last_reduce := 0
  stats_conflicts := 100
  stats_analyzed := 7

/-- A candidate clause tied with `tie_b` on both glue and time stamp. -/
def tie_a : Clause where
  _analyzed := 7
  _pos := 2
  have_analyzed := true
  have_pos := true
  redundant := true
  garbage := false
  reason := false
  moved := false
  glue := 3
  blocked := 0
  size := 3
  literals := [1, -2, 4]

/-- A clause distinct from `tie_a` (different size and literals) but with the
same glue and the same `analyzed` time stamp. -/
def tie_b : Clause where
  _analyzed := 7
  _pos := 2
  have_analyzed := true
  have_pos := true
  redundant := true
  garbage := false
  reason := false
  moved := false
  glue := 3
  blocked := 0
  size := 4
  literals := [1, -2, 4, -6]

section ComparatorLemmas

lemma analyzed_earlier_eq_false_iff (a b : Clause) :
    analyzed_earlier a b = false ↔ b._analyzed ≤ a._analyzed := by
  simp [analyzed_earlier]

lemma analyzed_earlier_eq_true_iff (a b : Clause) :
    analyzed_earlier a b = true ↔ a._analyzed < b._analyzed := by
  simp [analyzed_earlier]

lemma less_usefull_eq_false_iff (c d : Clause) :
    less_usefull c d = false ↔
      c.glue < d.glue ∨ (c.glue = d.glue ∧ d._analyzed ≤ c._analyzed) := by
  simp only [less_usefull]
  split_ifs with h1 h2 <;>
    simp [analyzed_earlier_eq_false_iff] <;> omega

lemma less_usefull_eq_true_iff (c d : Clause) :
    less_usefull c d = true ↔
      d.glue < c.glue ∨ (c.glue = d.glue ∧ c._analyzed < d._analyzed) := by
  simp only [less_usefull]
  split_ifs with h1 h2 <;>
    simp [analyzed_earlier_eq_true_iff] <;> omega

instance : IsTotal Clause rLU := by
  constructor
  intro c d
  unfold rLU
  rw [less_usefull_eq_false_iff, less_usefull_eq_false_iff]
  omega

instance : IsTrans Clause rLU := by
  constructor
  intro a b c hab hbc
  unfold rLU at hab hbc ⊢
  rw [less_usefull_eq_false_iff] at hab hbc ⊢
  omega

instance : IsTotal Clause rAE := by
  constructor
  intro c d
  unfold rAE
  rw [analyzed_earlier_eq_false_iff, analyzed_earlier_eq_false_iff]
  omega

instance : IsTrans Clause rAE := by
  constructor
  intro a b c hab hbc
  unfold rAE at hab hbc ⊢
  rw [analyzed_earlier_eq_false_iff] at hab hbc ⊢
  omega

end ComparatorLemmas

section MarkLemmas

lemma sortedStack_perm (g : Bool) (lim : Int) (clauses : List Clause) :
    (sortedStack g lim clauses).Perm (reductionStack lim clauses) := by
  unfold sortedStack
  split
  · exact List.perm_insertionSort rLU (reductionStack lim clauses)
  · exact List.perm_insertionSort rAE (reductionStack lim clauses)

lemma sortedStack_length (g : Bool) (lim : Int) (clauses : List Clause) :
    (sortedStack g lim clauses).length = (reductionStack lim clauses).length :=
  (sortedStack_perm g lim clauses).length_eq

lemma mem_sortedStack (g : Bool) (lim : Int) (clauses : List Clause) (c : Clause) :
    c ∈ sortedStack g lim clauses ↔ c ∈ reductionStack lim clauses :=
  (sortedStack_perm g lim clauses).mem_iff

lemma marked_eq (g : Bool) (lim r0 : Int) (clauses : List Clause) :
    (mark_useless_redundant_clauses_as_garbage g lim r0 clauses).marked =
      (sortedStack g lim clauses).take ((sortedStack g lim clauses).length / 2) := rfl

lemma kept_eq (g : Bool) (lim r0 : Int) (clauses : List Clause) :
    (mark_useless_redundant_clauses_as_garbage g lim r0 clauses).kept =
      (sortedStack g lim clauses).drop ((sortedStack g lim clauses).length / 2) := rfl

lemma mem_marked_mem_stack (g : Bool) (lim r0 : Int) (clauses : List Clause) (c : Clause)
    (h : c ∈ (mark_useless_redundant_clauses_as_garbage g lim r0 clauses).marked) :
    c ∈ reductionStack lim clauses := by
  rw [marked_eq] at h
  exact (mem_sortedStack g lim clauses c).mp (List.mem_of_mem_take h)

lemma mem_kept_mem_stack (g : Bool) (lim r0 : Int) (clauses : List Clause) (c : Clause)
    (h : c ∈ (mark_useless_redundant_clauses_as_garbage g lim r0 clauses).kept) :
    c ∈ reductionStack lim clauses := by
  rw [kept_eq] at h
  exact (mem_sortedStack g lim clauses c).mp (List.mem_of_mem_drop h)

lemma isCandidate_of_mem_stack (lim : Int) (clauses : List Clause) (c : Clause)
    (h : c ∈ reductionStack lim clauses) : isCandidate lim c = true :=
  List.of_mem_filter h

lemma mem_clauses_of_mem_stack (lim : Int) (clauses : List Clause) (c : Clause)
    (h : c ∈ reductionStack lim clauses) : c ∈ clauses :=
  List.mem_of_mem_filter h

/-- The running maximum loop `if (f c > m) m = f c;` starting from `a`:
the result bounds `a` and every element, and is either `a` or attained. -/
lemma foldl_run_max (f : Clause → Int) (l : List Clause) (a : Int) :
    a ≤ l.foldl (fun m c => if f c > m then f c else m) a ∧
    (∀ c ∈ l, f c ≤ l.foldl (fun m c => if f c > m then f c else m) a) ∧
    (l.foldl (fun m c => if f c > m then f c else m) a = a ∨
      ∃ c ∈ l, l.foldl (fun m c => if f c > m then f c else m) a = f c) := by
  induction l generalizing a with
  | nil => simp
  | cons hd tl ih =>
    simp only [List.foldl_cons, List.mem_cons]
    by_cases h : f hd > a
    · rw [if_pos h]
      obtain ⟨ih1, ih2, ih3⟩ := ih (f hd)
      refine ⟨by omega, ?_, ?_⟩
      · intro c hc
        rcases hc with rfl | hc
        · exact ih1
        · exact ih2 c hc
      · rcases ih3 with h3 | ⟨c, hc, hce⟩
        · exact Or.inr ⟨hd, Or.inl rfl, h3⟩
        · exact Or.inr ⟨c, Or.inr hc, hce⟩
    · rw [if_neg h]
      obtain ⟨ih1, ih2, ih3⟩ := ih a
      refine ⟨ih1, ?_, ?_⟩
      · intro c hc
        rcases hc with rfl | hc
        · omega
        · exact ih2 c hc
      · rcases ih3 with h3 | ⟨c, hc, hce⟩
        · exact Or.inl h3
        · exact Or.inr ⟨c, Or.inr hc, hce⟩

lemma keptsize_eq (g : Bool) (lim r0 : Int) (clauses : List Clause) :
    (mark_useless_redundant_clauses_as_garbage g lim r0 clauses).keptsize =
      (mark_useless_redundant_clauses_as_garbage g lim r0 clauses).kept.foldl
        (fun m c => if c.size > m then c.size else m) 0 := rfl

lemma keptglue_eq (g : Bool) (lim r0 : Int) (clauses : List Clause) :
    (mark_useless_redundant_clauses_as_garbage g lim r0 clauses).keptglue =
      (mark_useless_redundant_clauses_as_garbage g lim r0 clauses).kept.foldl
        (fun m c => if c.glue > m then c.glue else m) 0 := rfl

lemma reduced_eq (g : Bool) (lim r0 : Int) (clauses : List Clause) :
    (mark_useless_redundant_clauses_as_garbage g lim r0 clauses).reduced =
      r0 + (mark_useless_redundant_clauses_as_garbage g lim r0 clauses).marked.length := rfl

lemma isCandidate_eq_true_iff (limAnalyzed : Int) (c : Clause) :
    isCandidate limAnalyzed c = true ↔
      (c.redundant = true ∧ c.blocked = 0 ∧ c.reason = false ∧ c.garbage = false ∧
        c.have_analyzed = true ∧ c._analyzed ≤ limAnalyzed) := by
  unfold isCandidate
  split_ifs with h1 h2 h3 h4 h5 h6 <;> simp_all

end MarkLemmas

/-- C1 (amended): the raw allocation owned by a clause at address `p` starts
at `p + offset(p)` — not `p − offset(p)` — and has length
`bytes(p) = sizeof(Clause) + (size − 2)·sizeof(int) − offset(p)`, where
`offset(p)` is the sum of the sizes of the absent optional prefix fields as
determined by the presence bits. -/
theorem allocation_start_and_bytes (c : Clause) (p : Int) :
    Clause.offset c = spec_offset c ∧
    Clause.start c p = p + spec_offset c ∧
    Clause.bytes c = sizeof_Clause + (c.size - 2) * sizeof_int - spec_offset c := by
  have hoff : Clause.offset c = spec_offset c := by
    unfold Clause.offset spec_offset
    cases hp : c.have_pos <;> cases ha : c.have_analyzed <;> simp
  refine ⟨hoff, ?_, ?_⟩
  · unfold Clause.start
    rw [hoff]
    ring
  · unfold Clause.bytes
    rw [hoff]

/-- C1, counterexample to the claim as stated: for a binary original clause
(with both optional fields absent, so `offset = 12`) placed at address 100,
the actual allocation start is `100 + 12 = 112`, not `100 − 12 = 88`. -/
theorem allocation_start_cex :
    Clause.start clause_no_extra 100 ≠ 100 - Clause.offset clause_no_extra := by
  decide

/-- C2 (amended): the scheduler-update tail of `reduce` first grows
`inc.reduce` by `inc.redinc`, then decrements `inc.redinc` when it exceeds 1,
and only then sets `lim.reduce` to the conflict count plus the *post-update*
`inc.reduce`; finally `lim.analyzed` is set to `stats.analyzed` and
`lim.conflicts_at_last_reduce` to `stats.conflicts`. -/
theorem reduce_update_spec (s : SchedState) :
    (reduce_update s).inc_reduce = s.inc_reduce + s.inc_redinc ∧
    (reduce_update s).inc_redinc =
      (if s.inc_redinc > 1 then s.inc_redinc - 1 else s.inc_redinc) ∧
    (reduce_update s).lim_reduce = s.stats_conflicts + (s.inc_reduce + s.inc_redinc) ∧
    (reduce_update s).lim_analyzed = s.stats_analyzed ∧
    (reduce_update s).lim_conflicts_at_last_reduce = s.stats_conflicts := by
  dsimp only [reduce_update]
  split_ifs <;> simp

/-- C2, counterexample to the claim as stated: starting from 100 conflicts,
`inc.reduce = 10` and `inc.redinc = 5`, the code sets `lim.reduce` to
`100 + 15 = 115`, not to the conflict count plus the pre-update increment
`100 + 10 = 110`. -/
theorem reduce_update_pre_increment_cex :
    (reduce_update sched0).lim_reduce ≠ sched0.stats_conflicts + sched0.inc_reduce := by
  decide

/-- C3: a live clause is selected as a reduction candidate iff it is
redundant, its blocking literal is 0, it is not a reason, not already
garbage, carries the `analyzed` presence bit, and its time stamp is at most
`lim.analyzed`; and every clause marked garbage by the operation passed this
test. -/
theorem candidate_selection_iff (limAnalyzed r0 : Int) (g : Bool)
    (clauses : List Clause) (c : Clause) :
    (isCandidate limAnalyzed c = true ↔
      (c.redundant = true ∧ c.blocked = 0 ∧ c.reason = false ∧ c.garbage = false ∧
        c.have_analyzed = true ∧ c._analyzed ≤ limAnalyzed)) ∧
    (c ∈ (mark_useless_redundant_clauses_as_garbage g limAnalyzed r0 clauses).marked →
      isCandidate limAnalyzed c = true) := by
  constructor
  · exact isCandidate_eq_true_iff limAnalyzed c
  · intro h
    exact isCandidate_of_mem_stack limAnalyzed clauses c
      (mem_marked_mem_stack g limAnalyzed r0 clauses c h)

/-- C3, witness: a concrete redundant clause passes the candidate test and is
marked in a concrete run. -/
theorem candidate_selection_iff_witness :
    isCandidate 5 (cand 3 1 3) = true ∧
    (cand 3 1 3).redundant = true :=
  ⟨(candidate_selection_iff 5 0 true [cand 3 1 3, cand 2 2 3] (cand 3 1 3)).2 (by decide),
    ((candidate_selection_iff 5 0 true [cand 3 1 3, cand 2 2 3] (cand 3 1 3)).1.mp
      (by decide)).1⟩

/-- C4: one call to the reduction policy marks exactly `⌊n/2⌋` clauses as
garbage, where `n` is the number of selected candidates, and increments
`stats.reduced` once per marked clause; with no candidates nothing is
marked. -/
theorem marked_half_count (g : Bool) (limAnalyzed r0 : Int) (clauses : List Clause) :
    (mark_useless_redundant_clauses_as_garbage g limAnalyzed r0 clauses).marked.length
        = (reductionStack limAnalyzed clauses).length / 2 ∧
    (mark_useless_redundant_clauses_as_garbage g limAnalyzed r0 clauses).reduced
        = r0 + (((reductionStack limAnalyzed clauses).length / 2 : Nat) : Int) ∧
    ((reductionStack limAnalyzed clauses).length = 0 →
      (mark_useless_redundant_clauses_as_garbage g limAnalyzed r0 clauses).marked = []) := by
  have hlen : (mark_useless_redundant_clauses_as_garbage g limAnalyzed r0 clauses).marked.length
      = (reductionStack limAnalyzed clauses).length / 2 := by
    rw [marked_eq, List.length_take, sortedStack_length]
    exact Nat.min_eq_left (Nat.div_le_self _ _)
  refine ⟨hlen, ?_, ?_⟩
  · rw [reduced_eq, hlen]
  · intro h
    rw [marked_eq]
    have hnil : sortedStack g limAnalyzed clauses = [] := by
      have := sortedStack_length g limAnalyzed clauses
      rw [h] at this
      exact List.length_eq_zero.mp this
    rw [hnil]
    simp

/-- C4, witness: with an empty clause list there are no candidates and no
clause is marked. -/
theorem marked_half_count_witness :
    (mark_useless_redundant_clauses_as_garbage false 0 0 []).marked = [] :=
  (marked_half_count false 0 0 []).2.2 (by decide)

/-- C5: when the `reduceglue` option is set, every clause marked garbage by
the reduction policy has glue at least as large as every surviving
candidate's glue. -/
theorem reduceglue_keeps_small_glue (limAnalyzed r0 : Int) (clauses : List Clause)
    (m u : Clause)
    (hm : m ∈ (mark_useless_redundant_clauses_as_garbage true limAnalyzed r0 clauses).marked)
    (hu : u ∈ (mark_useless_redundant_clauses_as_garbage true limAnalyzed r0 clauses).kept) :
    u.glue ≤ m.glue := by
  rw [marked_eq] at hm
  rw [kept_eq] at hu
  have hsorted : (sortedStack true limAnalyzed clauses).Sorted rLU := by
    have hs : sortedStack true limAnalyzed clauses
        = List.insertionSort rLU (reductionStack limAnalyzed clauses) := rfl
    rw [hs]
    exact List.sorted_insertionSort rLU (reductionStack limAnalyzed clauses)
  have hrel : rLU m u := hsorted.rel_of_mem_take_of_mem_drop hm hu
  unfold rLU at hrel
  rw [less_usefull_eq_false_iff] at hrel
  omega

/-- C5, witness: in a concrete run with two candidates of glue 3 and glue 2,
the glue-3 clause is marked and the kept clause has smaller glue. -/
theorem reduceglue_keeps_small_glue_witness :
    (cand 2 2 3).glue ≤ (cand 3 1 3).glue :=
  reduceglue_keeps_small_glue 5 0 [cand 3 1 3, cand 2 2 3] (cand 3 1 3) (cand 2 2 3)
    (by decide) (by decide)

/-- C6 (amended): both comparators are strict weak orders: they are
asymmetric and transitive, and for two clauses with distinct sort keys
(glue or time stamp for `less_usefull`, time stamp for `analyzed_earlier`)
exactly one of the two directions holds; clauses with equal keys are
incomparable, so the sorted sequence is determined only up to the order of
key-equal clauses (there is no pointer-identity fallback in the code). -/
theorem comparator_strict_weak_order (c d e : Clause) :
    (less_usefull c d = true → less_usefull d c = false) ∧
    (less_usefull c d = true → less_usefull d e = true → less_usefull c e = true) ∧
    ((c.glue ≠ d.glue ∨ c._analyzed ≠ d._analyzed) →
      less_usefull c d = true ∨ less_usefull d c = true) ∧
    (analyzed_earlier c d = true → analyzed_earlier d c = false) ∧
    (analyzed_earlier c d = true → analyzed_earlier d e = true →
      analyzed_earlier c e = true) ∧
    (c._analyzed ≠ d._analyzed →
      analyzed_earlier c d = true ∨ analyzed_earlier d c = true) := by
  simp only [less_usefull_eq_true_iff, less_usefull_eq_false_iff,
    analyzed_earlier_eq_true_iff, analyzed_earlier_eq_false_iff]
  omega

/-- C6, witness: asymmetry of `less_usefull` at a concrete pair with
different glue. -/
theorem comparator_strict_weak_order_witness :
    less_usefull (cand 2 2 3) (cand 3 1 3) = false :=
  (comparator_strict_weak_order (cand 3 1 3) (cand 2 2 3) (cand 2 2 3)).1 (by decide)

/-- C6, counterexample to the claim as stated: two distinct candidate
clauses with equal glue and equal `analyzed` time stamp are ordered by
neither comparator in either direction — there is no pointer-identity
fallback, so it is not the case that exactly one of them is ordered
strictly before the other. -/
theorem comparator_ties_incomparable_cex :
    tie_a ≠ tie_b ∧
    isCandidate 7 tie_a = true ∧ isCandidate 7 tie_b = true ∧
    less_usefull tie_a tie_b = false ∧ less_usefull tie_b tie_a = false ∧
    analyzed_earlier tie_a tie_b = false ∧ analyzed_earlier tie_b tie_a = false := by
  decide

/-- C7: after the reduction policy runs, `lim.keptsize` and `lim.keptglue`
are the maxima of size and glue over the surviving half of the sorted
candidate sequence (upper bounds that are attained when the surviving half
is nonempty, given the clause invariants `size ≥ 2` and `glue ≥ 0`), and
both are 0 when the surviving half is empty. -/
theorem kept_profile_maxima (g : Bool) (limAnalyzed r0 : Int) (clauses : List Clause)
    (hsz : ∀ c ∈ clauses, 2 ≤ c.size) (hgl : ∀ c ∈ clauses, 0 ≤ c.glue) :
    ((mark_useless_redundant_clauses_as_garbage g limAnalyzed r0 clauses).kept = [] →
      (mark_useless_redundant_clauses_as_garbage g limAnalyzed r0 clauses).keptsize = 0 ∧
      (mark_useless_redundant_clauses_as_garbage g limAnalyzed r0 clauses).keptglue = 0) ∧
    (∀ c ∈ (mark_useless_redundant_clauses_as_garbage g limAnalyzed r0 clauses).kept,
      c.size ≤ (mark_useless_redundant_clauses_as_garbage g limAnalyzed r0 clauses).keptsize ∧
      c.glue ≤ (mark_useless_redundant_clauses_as_garbage g limAnalyzed r0 clauses).keptglue) ∧
    ((mark_useless_redundant_clauses_as_garbage g limAnalyzed r0 clauses).kept ≠ [] →
      (∃ c ∈ (mark_useless_redundant_clauses_as_garbage g limAnalyzed r0 clauses).kept,
        (mark_useless_redundant_clauses_as_garbage g limAnalyzed r0 clauses).keptsize = c.size) ∧
      (∃ c ∈ (mark_useless_redundant_clauses_as_garbage g limAnalyzed r0 clauses).kept,
        (mark_useless_redundant_clauses_as_garbage g limAnalyzed r0 clauses).keptglue = c.glue)) := by
  obtain ⟨s1, s2, s3⟩ := foldl_run_max (fun c => c.size)
    (mark_useless_redundant_clauses_as_garbage g limAnalyzed r0 clauses).kept 0
  obtain ⟨g1, g2, g3⟩ := foldl_run_max (fun c => c.glue)
    (mark_useless_redundant_clauses_as_garbage g limAnalyzed r0 clauses).kept 0
  have hmem : ∀ c ∈ (mark_useless_redundant_clauses_as_garbage g limAnalyzed r0 clauses).kept,
      c ∈ clauses := fun c hc =>
    mem_clauses_of_mem_stack limAnalyzed clauses c
      (mem_kept_mem_stack g limAnalyzed r0 clauses c hc)
  refine ⟨?_, ?_, ?_⟩
  · intro h
    rw [keptsize_eq, keptglue_eq, h]
    exact ⟨rfl, rfl⟩
  · intro c hc
    rw [keptsize_eq, keptglue_eq]
    exact ⟨s2 c hc, g2 c hc⟩
  · intro h
    obtain ⟨c0, hc0⟩ := List.exists_mem_of_ne_nil _ h
    constructor
    · rcases s3 with hs0 | ⟨c, hc, hce⟩
      · exfalso
        have h1 := s2 c0 hc0
        have h2 := hsz c0 (hmem c0 hc0)
        rw [hs0] at h1
        omega
      · exact ⟨c, hc, by rw [keptsize_eq]; exact hce⟩
    · rcases g3 with hg0 | ⟨c, hc, hce⟩
      · refine ⟨c0, hc0, ?_⟩
        have h1 := g2 c0 hc0
        have h2 := hgl c0 (hmem c0 hc0)
        rw [keptglue_eq, hg0]
        omega
      · exact ⟨c, hc, by rw [keptglue_eq]; exact hce⟩

/-- C7, witness: in a concrete run with surviving half `[cand 2 2 3]`, the
kept clause's size and glue are bounded by the published profile. -/
theorem kept_profile_maxima_witness :
    (cand 2 2 3).size ≤
      (mark_useless_redundant_clauses_as_garbage true 5 0 [cand 3 1 3, cand 2 2 3]).keptsize ∧
    (cand 2 2 3).glue ≤
      (mark_useless_redundant_clauses_as_garbage true 5 0 [cand 3 1 3, cand 2 2 3]).keptglue :=
  (kept_profile_maxima true 5 0 [cand 3 1 3, cand 2 2 3] (by decide) (by decide)).2.1
    (cand 2 2 3) (by decide)

/-- C8: for a clause of size ≥ 2, `update_after_shrinking` resets `_pos` to
2 when the `pos` field is present and at least `size`, and clamps `glue` to
`size` when it exceeds it. -/
theorem update_after_shrinking_spec (c : Clause) (h : 2 ≤ c.size) :
    (c.have_pos = true → c.size ≤ c._pos → c.update_after_shrinking._pos = 2) ∧
    (c.size < c.glue → c.update_after_shrinking.glue = c.size) := by
  dsimp only [Clause.update_after_shrinking]
  constructor
  · intro hp hge
    split_ifs <;> simp_all
  · intro hg
    split_ifs <;> simp_all

/-- C8, witness: the spec scenario — a clause that had `size = 6`,
`pos = 5`, `glue = 4` and was shrunk to `size = 3` ends with `pos = 2` and
`glue = 3`. -/
theorem update_after_shrinking_spec_witness :
    shrunk_clause.update_after_shrinking._pos = 2 ∧
    shrunk_clause.update_after_shrinking.glue = 3 :=
  ⟨(update_after_shrinking_spec shrunk_clause (by decide)).1 (by decide) (by decide),
    (update_after_shrinking_spec shrunk_clause (by decide)).2 (by decide)⟩

/-- C9: the `analyzed` and `pos` accessors succeed exactly when the
corresponding presence bit is set (returning the stored field) and fail the
assertion otherwise (modelled as `none`); moreover the reduction policy only
reads `analyzed` of clauses whose presence bit is set, since the selection
loop checks the bit first. -/
theorem accessor_presence (limAnalyzed : Int) (clauses : List Clause) (c : Clause) :
    (c.have_analyzed = true → c.analyzed = some c._analyzed) ∧
    (c.have_analyzed = false → c.analyzed = none) ∧
    (c.have_pos = true → c.pos = some c._pos) ∧
    (c.have_pos = false → c.pos = none) ∧
    (c ∈ reductionStack limAnalyzed clauses → c.have_analyzed = true) := by
  refine ⟨?_, ?_, ?_, ?_, ?_⟩ <;> intro h
  · unfold Clause.analyzed
    rw [if_pos h]
  · unfold Clause.analyzed
    simp [h]
  · unfold Clause.pos
    rw [if_pos h]
  · unfold Clause.pos
    simp [h]
  · exact ((isCandidate_eq_true_iff limAnalyzed c).mp
      (isCandidate_of_mem_stack limAnalyzed clauses c h)).2.2.2.2.1

/-- C9, witness: a concrete candidate clause has its presence bit set and
its accessor returns the stored time stamp; a clause without the bit fails
the accessor. -/
theorem accessor_presence_witness :
    (cand 3 1 3).analyzed = some 1 ∧
    clause_no_extra.analyzed = none ∧
    (cand 3 1 3).have_analyzed = true :=
  ⟨(accessor_presence 5 [cand 3 1 3] (cand 3 1 3)).1 (by decide),
    (accessor_presence 5 [cand 3 1 3] clause_no_extra).2.1 (by decide),
    (accessor_presence 5 [cand 3 1 3] (cand 3 1 3)).2.2.2.2 (by decide)⟩

/-- C10: `update_after_shrinking` mutates at most `_pos` and `glue`; every
other field — size, literals, blocked, the presence bits, the `analyzed`
time stamp and all four flags — is unchanged. -/
theorem update_after_shrinking_frame (c : Clause) (h : 2 ≤ c.size) :
    c.update_after_shrinking.size = c.size ∧
    c.update_after_shrinking.literals = c.literals ∧
    c.update_after_shrinking.blocked = c.blocked ∧
    c.update_after_shrinking.have_analyzed = c.have_analyzed ∧
    c.update_after_shrinking.have_pos = c.have_pos ∧
    c.update_after_shrinking._analyzed = c._analyzed ∧
    c.update_after_shrinking.redundant = c.redundant ∧
    c.update_after_shrinking.garbage = c.garbage ∧
    c.update_after_shrinking.reason = c.reason ∧
    c.update_after_shrinking.moved = c.moved := by
  dsimp only [Clause.update_after_shrinking]
  split_ifs <;> simp

/-- C10, witness: the frame condition at the concrete shrink scenario. -/
theorem update_after_shrinking_frame_witness :
    shrunk_clause.update_after_shrinking.size = 3 ∧
    shrunk_clause.update_after_shrinking.moved = false :=
  ⟨(update_after_shrinking_frame shrunk_clause (by decide)).1,
    (update_after_shrinking_frame shrunk_clause (by decide)).2.2.2.2.2.2.2.2.2⟩

end CaDiCaL
